import Mathlib

/-!
Shallow embedding of pyMOI (src/pymoi/models.py and src/pymoi/main.py).

Modelling conventions:
* pysam aligned reads are explicit records exposing exactly the attributes the
  source reads (reference_name, mapping_quality, the secondary/supplementary/
  unmapped flags, query_qualities, query_sequence, get_aligned_pairs with
  with_seq=True);
* a pysam.AlignmentFile is modelled by its fetch capability
  (contig, start, end ↦ list of reads);
* Python exceptions are modelled by Except String, propagating as in Python
  (uncaught exceptions abort the computation);
* Python dict and collections.Counter are modelled by association lists
  (dict assignment: last write wins; Counter: distinct keys with counts);
* the float parameter min_count and the float literal 0.9 are modelled by
  exact rational arithmetic; int(len(xs)*0.9) is the exact floor (9*n)/10.
-/

set_option autoImplicit false

deriving instance DecidableEq for Except

namespace Pymoi

/-- Exact rational multiplication, written through mkRat so that it is
kernel-reducible (the library multiplication on Rat is irreducible); proved
equal to the library multiplication in ratMul_eq_mul below. -/
def ratMul (a b : Rat) : Rat := mkRat (a.num * b.num) (a.den * b.den)

/-- models.py GenomePosition: chromosome name and 1-based coordinate. -/
structure GenomePosition where
  chrom : String
  pos : Int
deriving DecidableEq, Repr

/-- models.py GenomePosition.lt (the dunder lt): raises ValueError when the
chromosomes differ, otherwise compares coordinates. -/
def GenomePosition.lt (self other : GenomePosition) : Except String Bool :=
  if self.chrom ≠ other.chrom then
    Except.error ("Cannot compare positions on different chromosomes: "
      ++ self.chrom ++ " and " ++ other.chrom)
  else
    Except.ok (decide (self.pos < other.pos))

/-- models.py GenomeRange; the source field named end becomes stop (Lean
keyword). -/
structure GenomeRange where
  chrom : String
  start : Int
  stop : Int
deriving DecidableEq, Repr

/-- models.py GenomeRange.contains (the dunder contains): same chromosome and
start ≤ pos ≤ end, returning True else False. -/
def GenomeRange.contains (self : GenomeRange) (pos : GenomePosition) : Bool :=
  if pos.chrom == self.chrom && decide (pos.pos ≥ self.start)
      && decide (pos.pos ≤ self.stop) then
    true
  else
    false

/-- One element of read.get_aligned_pairs(with_seq=True): query offset,
reference coordinate, reference base (lowercase encodes a mismatch). -/
structure AlignedPair where
  read_pos : Option Nat
  ref_pos : Option Int
  read_nt : Option Char
deriving DecidableEq, Repr

/-- The slice of a pysam AlignedSegment that main.py reads. -/
structure Read where
  reference_name : String
  mapping_quality : Nat
  is_secondary : Bool
  is_supplementary : Bool
  is_unmapped : Bool
  query_qualities : Option (List Nat)
  query_sequence : List Char
  aligned_pairs : List AlignedPair
deriving DecidableEq, Repr

/-- Python dict: assignment overwrites, .get returns the last binding. -/
def dict_get (d : List (GenomePosition × Char)) (p : GenomePosition) : Option Char :=
  d.foldl (fun acc kv => if kv.1 = p then some kv.2 else acc) none

/-- Body of the aligned-pairs loop of main.py get_alleles, in source order:
skip pairs with no reference base, skip pairs with no query offset, build the
1-based GenomePosition (ref_pos + 1), skip positions outside the target list,
skip base qualities below 12, and record the uppercased query base at a
mismatch (lowercase reference base) or the reference base otherwise.
Accessing query_qualities when it is None is Python's TypeError. -/
def allele_step (read : Read) (positions : List GenomePosition)
    (alleles : List (GenomePosition × Char)) (pair : AlignedPair) :
    Except String (List (GenomePosition × Char)) :=
  match pair.read_nt with
  | none => Except.ok alleles
  | some read_nt =>
    match pair.read_pos with
    | none => Except.ok alleles
    | some read_pos =>
      match pair.ref_pos with
      | none => Except.error ("TypeError: unsupported operand type for +: NoneType and int")
      | some ref_pos =>
        let p : GenomePosition := ⟨read.reference_name, ref_pos + 1⟩
        if p ∉ positions then Except.ok alleles
        else
          match read.query_qualities with
          | none => Except.error ("TypeError: NoneType object is not subscriptable")
          | some quals =>
            match quals.get? read_pos with
            | none => Except.error ("IndexError: array index out of range")
            | some q =>
              if q < 12 then Except.ok alleles
              else if read_nt.isLower then
                match read.query_sequence.get? read_pos with
                | none => Except.error ("IndexError: string index out of range")
                | some base => Except.ok (alleles ++ [(p, base.toUpper)])
              else Except.ok (alleles ++ [(p, read_nt)])

/-- main.py get_alleles: fold the aligned pairs into the alleles dict, then
return the per-target-position calls (None when the position got no call). -/
def get_alleles (read : Read) (positions : List GenomePosition) :
    Except String (List (Option Char)) := do
  let alleles ← read.aligned_pairs.foldlM (allele_step read positions) []
  pure (positions.map (fun p => dict_get alleles p))

/-- pysam.AlignmentFile modelled by its fetch capability. -/
abbrev Bam : Type := String → Int → Int → List Read

/-- One step of Python's builtin min over GenomePosition values: compares
item.lt(current) and keeps the first minimum. -/
def min_step (cur item : GenomePosition) : Except String GenomePosition := do
  let b ← GenomePosition.lt item cur
  pure (if b then item else cur)

/-- Python min() over a list of GenomePosition. -/
def pyMin : List GenomePosition → Except String GenomePosition
  | [] => Except.error ("ValueError: min() arg is an empty sequence")
  | x :: xs => xs.foldlM min_step x

/-- One step of Python's builtin max: item > current resolves to the reflected
comparison current.lt(item) since GenomePosition only defines lt. -/
def max_step (cur item : GenomePosition) : Except String GenomePosition := do
  let b ← GenomePosition.lt cur item
  pure (if b then item else cur)

/-- Python max() over a list of GenomePosition. -/
def pyMax : List GenomePosition → Except String GenomePosition
  | [] => Except.error ("ValueError: max() arg is an empty sequence")
  | x :: xs => xs.foldlM max_step x

/-- Body of the read loop of main.py get_haplotype_counts: discard reads with
mapping quality < 10 or flagged secondary/supplementary/unmapped; call
alleles; append the joined combination only when every position got a call. -/
def read_step (positions : List GenomePosition) (allele_combinations : List String)
    (read : Read) : Except String (List String) :=
  if read.mapping_quality < 10 then Except.ok allele_combinations
  else if read.is_secondary then Except.ok allele_combinations
  else if read.is_supplementary then Except.ok allele_combinations
  else if read.is_unmapped then Except.ok allele_combinations
  else do
    let alleles ← get_alleles read positions
    if alleles.all (fun a => a.isSome) then
      pure (allele_combinations ++ [String.mk (alleles.filterMap id)])
    else
      pure allele_combinations

/-- main.py get_haplotype_counts. It returns the list of per-read allele
combinations; the source's Counter of that list is counterOf below. -/
def get_haplotype_counts (bam : Bam) (positions : List GenomePosition) :
    Except String (List String) := do
  let chrom ← match positions.head? with
    | none => Except.error ("IndexError: list index out of range")
    | some p => pure p.chrom
  let start ← (pyMin positions).map (fun p => p.pos)
  let stop ← (pyMax positions).map (fun p => p.pos)
  (bam chrom start stop).foldlM (read_step positions) []

/-- collections.Counter of a list of strings, as an association list from the
distinct elements to their multiplicities. -/
def counterOf (l : List String) : List (String × Nat) :=
  l.dedup.map (fun k => (k, l.count k))

/-- collections.Counter of a list of naturals. -/
def counterNat (l : List Nat) : List (Nat × Nat) :=
  l.dedup.map (fun k => (k, l.count k))

/-- The filtering step of main.py get_num_haplotype: when min_count < 1 the
threshold is (sum of the counts) * min_count, otherwise min_count itself; a
combination is kept when its count is strictly greater than the threshold. -/
def filter_haplotype_counts (counts : List (String × Nat)) (min_count : Rat) :
    List (String × Nat) :=
  if min_count < 1 then
    let temp_count : Rat := ratMul (((counts.map (fun kv => kv.2)).sum : Nat) : Rat) min_count
    counts.filter (fun kv => decide (((kv.2 : Nat) : Rat) > temp_count))
  else
    counts.filter (fun kv => decide (((kv.2 : Nat) : Rat) > min_count))

/-- main.py get_num_haplotype: the number of distinct combinations surviving
the abundance filter. -/
def get_num_haplotype (bam : Bam) (positions : List GenomePosition)
    (min_count : Rat) : Except String Nat := do
  let combos ← get_haplotype_counts bam positions
  pure ((filter_haplotype_counts (counterOf combos) min_count).length)

/-- A record of the variant source: contig name and 1-based position. -/
structure VariantRecord where
  contig : String
  pos : Int
deriving DecidableEq, Repr

/-- The SNP positions main.py get_triplets extracts from the variant file. -/
def snps_of (vcf : List VariantRecord) : List GenomePosition :=
  vcf.map (fun var => GenomePosition.mk var.contig var.pos)

/-- main.py get_triplets: for every anchor SNP p take the window
(p.chrom, p.pos, p.pos + maxdist), keep the first 3 input SNPs inside it, and
emit them when there are exactly 3. -/
def get_triplets (vcf : List VariantRecord) (maxdist : Int) :
    List (List GenomePosition) :=
  let snp_positions := snps_of vcf
  snp_positions.filterMap (fun p =>
    let gr : GenomeRange := ⟨p.chrom, p.pos, p.pos + maxdist⟩
    let positions := (snp_positions.filter (fun q => gr.contains q)).take 3
    if positions.length = 3 then some positions else none)

/-- The fields of the result record of main.py main that the core computes. -/
structure MoiResult where
  moi : Nat
  haplotype_counts : List (Nat × Nat)
deriving DecidableEq, Repr

/-- main.py main: per-triplet retained counts, keeping only the positive ones,
sorted ascending; the histogram is the Counter of the sorted list and the MOI
is the element at index int(len*0.9), modelled exactly as (len*9)/10. An
out-of-range index is Python's IndexError. -/
def main (bam : Bam) (vcf : List VariantRecord) (min_count : Rat)
    (maxdist : Int) : Except String MoiResult := do
  let triplets := get_triplets vcf maxdist
  let haplotype_counts ← triplets.foldlM (fun acc positions => do
      let num_haps ← get_num_haplotype bam positions min_count
      pure (if num_haps > 0 then acc ++ [num_haps] else acc)) []
  let sorted := haplotype_counts.insertionSort (fun a b => a ≤ b)
  match sorted.get? (sorted.length * 9 / 10) with
  | none => Except.error ("IndexError: list index out of range")
  | some moi => pure (MoiResult.mk moi (counterNat sorted))

/-- The per-triplet retained counts of one run of main, in triplet order
(the sequence main folds over before filtering and sorting). -/
def triplet_counts (bam : Bam) (vcf : List VariantRecord) (min_count : Rat)
    (maxdist : Int) : Except String (List Nat) :=
  (get_triplets vcf maxdist).mapM (fun positions => get_num_haplotype bam positions min_count)

/-! ### Concrete instances used by the witnesses and counterexamples -/

/-- A primary, well-mapped read on chromosome c covering reference positions
1,2,3 whose three aligned bases match the reference bases b,A,A. -/
def mkRead (c : String) (b : Char) : Read :=
  ⟨c, 60, false, false, false, some [30,30,30], [b,'A','A'],
    [⟨some 0, some 0, some b⟩, ⟨some 1, some 1, some 'A'⟩, ⟨some 2, some 2, some 'A'⟩]⟩

/-- A read whose first base mismatches the reference (lowercase reference
base a, sequenced base T). -/
def rMismatch : Read :=
  ⟨"1", 60, false, false, false, some [30,30,30], ['T','A','A'],
    [⟨some 0, some 0, some 'a'⟩, ⟨some 1, some 1, some 'A'⟩, ⟨some 2, some 2, some 'A'⟩]⟩

/-- The marker set 1,2,3 on chromosome 1. -/
def positions3 : List GenomePosition := [⟨"1",1⟩, ⟨"1",2⟩, ⟨"1",3⟩]

/-- An alignment source whose fetch yields two AAA reads and two TAA reads. -/
def bam3 : Bam := fun _ _ _ => [mkRead "1" 'A', mkRead "1" 'A', rMismatch, rMismatch]

/-- Three SNPs on chromosome 1 at 100, 110 and 150 = 100 + 50. -/
def vcf4 : List VariantRecord := [⟨"1",100⟩, ⟨"1",110⟩, ⟨"1",150⟩]

/-- Four SNPs on chromosome 1 at consecutive coordinates 100..103. -/
def vcf5 : List VariantRecord := [⟨"1",100⟩, ⟨"1",101⟩, ⟨"1",102⟩, ⟨"1",103⟩]

/-- A read covering reference positions 101,102,103 (not 100) with base b. -/
def r5 (b : Char) : Read :=
  ⟨"1", 60, false, false, false, some [30,30,30], [b,b,b],
    [⟨some 0, some 100, some b⟩, ⟨some 1, some 101, some b⟩, ⟨some 2, some 102, some b⟩]⟩

/-- An alignment source with one AAA read and one TTT read on 101..103. -/
def bam5 : Bam := fun _ _ _ => [r5 'A', r5 'T']

/-- A primary, well-mapped read overlapping the markers but carrying no
quality-score array (query_qualities is None). -/
def rBadQual : Read :=
  ⟨"1", 60, false, false, false, none, ['A','A','A'],
    [⟨some 0, some 0, some 'A'⟩, ⟨some 1, some 1, some 'A'⟩, ⟨some 2, some 2, some 'A'⟩]⟩

/-- An alignment source returning only the quality-less read. -/
def bamBad : Bam := fun _ _ _ => [rBadQual]

/-- Three SNPs forming exactly one triplet, to drive a run over bamBad. -/
def vcfBad : List VariantRecord := [⟨"1",1⟩, ⟨"1",2⟩, ⟨"1",3⟩]

/-- An alignment source with no reads at all. -/
def bam0 : Bam := fun _ _ _ => []

/-- A variant input with a duplicated SNP position. -/
def vcfDup : List VariantRecord := [⟨"1",100⟩, ⟨"1",100⟩, ⟨"1",110⟩]

/-- Ten chromosomes paired with the number of distinct haplotypes their reads
should exhibit; the ascending list of these counts is 1,1,2,2,2,3,4,5,8,9. -/
def chromCounts : List (String × Nat) :=
  [("c1",1),("c2",1),("c3",2),("c4",2),("c5",2),("c6",3),("c7",4),("c8",5),("c9",8),("c10",9)]

/-- The first k uppercase letters of the alphabet. -/
def lettersFor (k : Nat) : List Char := (List.range k).map (fun i => Char.ofNat (65 + i))

/-- An alignment source whose fetch on chromosome c yields one read per
letter, so chromosome c carries (chromCounts c) distinct haplotypes. -/
def bamW : Bam := fun c _ _ =>
  match chromCounts.lookup c with
  | some k => (lettersFor k).map (mkRead c)
  | none => []

/-- Three SNPs at 1,2,3 on each of the ten chromosomes: exactly one triplet
per chromosome. -/
def vcfW : List VariantRecord :=
  (chromCounts.map (fun ck => [VariantRecord.mk ck.1 1, ⟨ck.1, 2⟩, ⟨ck.1, 3⟩])).flatten

/-- The spec scenario of four SNPs at 100, 150, 200, 900 on chromosome 1. -/
def vcfS : List VariantRecord := [⟨"1",100⟩, ⟨"1",150⟩, ⟨"1",200⟩, ⟨"1",900⟩]

/-- A one-base read matching the reference base A at reference position 1. -/
def readC7 : Read := ⟨"1", 60, false, false, false, some [30], ['A'], [⟨some 0, some 0, some 'A'⟩]⟩

/-- Modelled from the spec text of section 4.5 (refinement target for C6): a
combination with count v is retained iff its count strictly exceeds
total * min_count when min_count < 1, else strictly exceeds min_count. -/
def retained_per_spec (total v : Nat) (min_count : Rat) : Prop :=
  if min_count < 1 then ((total : Nat) : Rat) * min_count < ((v : Nat) : Rat)
  else min_count < ((v : Nat) : Rat)

/-- What is true of an entry that one aligned pair contributes to the alleles
dict of get_alleles: a target position on the read's chromosome observed by
the pair at base quality at least 12, whose recorded call is the uppercased
sequenced base at a mismatch or the (uppercase) reference base at a match. -/
def called_entry (read : Read) (positions : List GenomePosition)
    (pair : AlignedPair) (e : GenomePosition × Char) : Prop :=
  e.1 ∈ positions ∧ e.1.chrom = read.reference_name ∧
  ∃ rp : Nat, pair.read_pos = some rp ∧ pair.ref_pos = some (e.1.pos - 1) ∧
    (∃ quals q, read.query_qualities = some quals ∧ quals.get? rp = some q ∧ 12 ≤ q) ∧
    (∃ nt, pair.read_nt = some nt ∧
      ((nt.isLower = true ∧ ∃ base, read.query_sequence.get? rp = some base ∧ e.2 = base.toUpper) ∨
       (nt.isLower = false ∧ e.2 = nt)))

/-! ### Helper lemmas -/

/-- ratMul is the multiplication of rational numbers. -/
theorem ratMul_eq_mul (a b : Rat) : ratMul a b = a * b := by
  conv_rhs => rw [← Rat.num_div_den a, ← Rat.num_div_den b]
  rw [div_mul_div_comm, ratMul, Rat.mkRat_eq_div]
  push_cast
  ring

theorem bind_ok_eq {α β : Type} (a : α) (f : α → Except String β) :
    (Except.ok a >>= f) = f a := rfl

theorem bind_error_eq {α β : Type} (e : String) (f : α → Except String β) :
    ((Except.error e : Except String α) >>= f) = Except.error e := rfl

theorem map_ok_eq {α β : Type} (a : α) (f : α → β) :
    (Except.ok a : Except String α).map f = Except.ok (f a) := rfl

theorem map_error_eq {α β : Type} (e : String) (f : α → β) :
    (Except.error e : Except String α).map f = Except.error e := rfl

theorem pure_eq_ok {α : Type} (a : α) : (pure a : Except String α) = Except.ok a := rfl

/-- The conditional-append loop of main is the filtered sequence of
per-triplet retained counts. -/
theorem foldlM_counts (bam : Bam) (mc : Rat) (ts : List (List GenomePosition))
    (acc : List Nat) :
    ts.foldlM (fun acc positions => do
        let num_haps ← get_num_haplotype bam positions mc
        pure (if num_haps > 0 then acc ++ [num_haps] else acc)) acc
      = (ts.mapM (fun positions => get_num_haplotype bam positions mc)).map
          (fun l => acc ++ l.filter (fun n => n > 0)) := by
  induction ts generalizing acc with
  | nil =>
    rw [List.foldlM_nil, List.mapM_nil, pure_eq_ok, pure_eq_ok, map_ok_eq,
      List.filter_nil, List.append_nil]
  | cons t ts ih =>
    rw [List.foldlM_cons, List.mapM_cons]
    cases h : get_num_haplotype bam t mc with
    | error e => simp only [bind_error_eq, map_error_eq]
    | ok n =>
      simp only [bind_ok_eq, pure_eq_ok] at ih ⊢
      rw [ih]
      cases hm : ts.mapM (fun positions => get_num_haplotype bam positions mc) with
      | error e => simp only [bind_error_eq, map_error_eq]
      | ok l =>
        simp only [bind_ok_eq, pure_eq_ok, map_ok_eq, List.filter_cons]
        by_cases hn : n > 0
        · simp [hn, List.append_assoc]
        · simp [hn]

/-! ### The claims -/

/-- C1: for every run whose per-marker-set retained counts, filtered to the
positive ones and sorted ascending, form the non-empty sequence s of length
n, main returns as the MOI the element of s at 0-indexed rank
floor(n * 0.9) = 9*n/10 (and the Counter of s as the histogram). -/
theorem moi_is_rank090 (bam : Bam) (vcf : List VariantRecord) (mc : Rat) (maxdist : Int)
    (l : List Nat) (hl : triplet_counts bam vcf mc maxdist = Except.ok l)
    (s : List Nat)
    (hs : s = (l.filter (fun n => n > 0)).insertionSort (fun a b => a ≤ b))
    (hne : s ≠ []) :
    main bam vcf mc maxdist
      = Except.ok (MoiResult.mk (s.getD (s.length * 9 / 10) 0) (counterNat s)) := by
  have h0 : 0 < s.length := List.length_pos.mpr hne
  have hidx : s.length * 9 / 10 < s.length := Nat.div_lt_of_lt_mul (by omega)
  unfold triplet_counts at hl
  have hfold : (get_triplets vcf maxdist).foldlM (fun acc positions => do
        let num_haps ← get_num_haplotype bam positions mc
        pure (if num_haps > 0 then acc ++ [num_haps] else acc)) []
      = Except.ok (l.filter (fun n => n > 0)) := by
    rw [foldlM_counts, hl, map_ok_eq, List.nil_append]
  simp only [main]
  rw [hfold, bind_ok_eq, ← hs]
  rw [List.get?_eq_get hidx, List.getD_eq_getElem s 0 hidx]
  rfl

/-- C1 witness: the sequence of retained counts 1,1,2,2,2,3,4,5,8,9 (10
elements, already positive and ascending) yields MOI 9, the element at index
floor(10 * 0.9) = 9. -/
theorem moi_is_rank090_witness :
    triplet_counts bamW vcfW 0 500 = Except.ok [1,1,2,2,2,3,4,5,8,9] ∧
    (main bamW vcfW 0 500).map (fun r => r.moi) = Except.ok 9 := by
  have h1 : triplet_counts bamW vcfW 0 500 = Except.ok [1,1,2,2,2,3,4,5,8,9] := by decide
  have h2 := moi_is_rank090 bamW vcfW 0 500 [1,1,2,2,2,3,4,5,8,9] h1
    (([1,1,2,2,2,3,4,5,8,9].filter (fun n => n > 0)).insertionSort (fun a b => a ≤ b))
    rfl (by decide)
  refine ⟨h1, ?_⟩
  rw [h2, map_ok_eq]
  decide

/-- C2: when no marker set yields a positive retained count (the filtered
count sequence is empty, which covers the empty variant input), main fails
with Python's uncaught IndexError from the out-of-range list index — not
with an explicit insufficient-data error. -/
theorem insufficient_data_is_index_error (bam : Bam) (vcf : List VariantRecord)
    (mc : Rat) (maxdist : Int) (l : List Nat)
    (hl : triplet_counts bam vcf mc maxdist = Except.ok l)
    (hz : l.filter (fun n => n > 0) = []) :
    main bam vcf mc maxdist = Except.error ("IndexError: list index out of range") := by
  unfold triplet_counts at hl
  have hfold : (get_triplets vcf maxdist).foldlM (fun acc positions => do
        let num_haps ← get_num_haplotype bam positions mc
        pure (if num_haps > 0 then acc ++ [num_haps] else acc)) []
      = Except.ok (l.filter (fun n => n > 0)) := by
    rw [foldlM_counts, hl, map_ok_eq, List.nil_append]
  simp only [main]
  rw [hfold, hz, bind_ok_eq]
  rfl

/-- C2 witness: two analyzed marker sets, both with retained count 0, make
the run fail with the IndexError. -/
theorem insufficient_data_witness :
    triplet_counts bam0 vcf5 10 500 = Except.ok [0,0] ∧
    [0,0].filter (fun n => n > 0) = [] ∧
    main bam0 vcf5 10 500 = Except.error ("IndexError: list index out of range") := by
  have h1 : triplet_counts bam0 vcf5 10 500 = Except.ok [0,0] := by decide
  have h2 : [0,0].filter (fun n => n > 0) = [] := by decide
  exact ⟨h1, h2, insufficient_data_is_index_error bam0 vcf5 10 500 [0,0] h1 h2⟩

/-- C4 (amended): the anchor window of get_triplets is the closed interval
from p.pos to p.pos + maxdist inclusive on both ends: a position q lies in it
exactly when the chromosomes match and p.pos ≤ q.pos ≤ p.pos + maxdist; in
particular a SNP at coordinate exactly p.pos + maxdist is inside the window. -/
theorem window_contains_iff (p q : GenomePosition) (d : Int) :
    GenomeRange.contains ⟨p.chrom, p.pos, p.pos + d⟩ q = true ↔
      (q.chrom = p.chrom ∧ p.pos ≤ q.pos ∧ q.pos ≤ p.pos + d) := by
  simp [GenomeRange.contains, Bool.and_eq_true, beq_iff_eq, decide_eq_true_eq, and_assoc,
    ge_iff_le]

/-- C4 counterexample: with anchor 100 and maxdist 50, the SNP at coordinate
exactly 100 + 50 = 150 is inside the anchor window and is collected as a
companion of the emitted marker set — the window is not half-open. -/
theorem boundary_snp_collected :
    GenomeRange.contains ⟨"1", 100, 100 + 50⟩ ⟨"1", 150⟩ = true ∧
    get_triplets vcf4 50 = [[⟨"1",100⟩, ⟨"1",110⟩, ⟨"1",150⟩]] ∧
    (∃ t ∈ get_triplets vcf4 50, (⟨"1",150⟩ : GenomePosition) ∈ t) := by
  decide

/-- The closed-interval characterization of GenomeRange membership, shared by
several proofs below. -/
theorem contains_eq (p q : GenomePosition) (d : Int) :
    GenomeRange.contains ⟨p.chrom, p.pos, p.pos + d⟩ q = true ↔
      (q.chrom = p.chrom ∧ p.pos ≤ q.pos ∧ q.pos ≤ p.pos + d) := by
  simp [GenomeRange.contains, Bool.and_eq_true, beq_iff_eq, decide_eq_true_eq, and_assoc,
    ge_iff_le]

/-- The retained-count filter keeps fewer combinations at a higher threshold,
as long as the two min_count values select the same branch of the filter. -/
theorem filter_haplotype_counts_antitone (tbl : List (String × Nat)) (a b : Rat)
    (hab : a ≤ b) (hreg : b < 1 ∨ 1 ≤ a) :
    (filter_haplotype_counts tbl b).length ≤ (filter_haplotype_counts tbl a).length := by
  unfold filter_haplotype_counts
  rcases hreg with hb1 | ha1
  · have ha1 : a < 1 := lt_of_le_of_lt hab hb1
    rw [if_pos hb1, if_pos ha1]
    apply List.Sublist.length_le
    apply List.monotone_filter_right
    intro kv hkv
    simp only [decide_eq_true_eq] at hkv ⊢
    have hmono : ratMul (((tbl.map (fun kv => kv.2)).sum : Nat) : Rat) a
        ≤ ratMul (((tbl.map (fun kv => kv.2)).sum : Nat) : Rat) b := by
      rw [ratMul_eq_mul, ratMul_eq_mul]
      exact mul_le_mul_of_nonneg_left hab (Nat.cast_nonneg _)
    exact lt_of_le_of_lt hmono hkv
  · have hb1 : ¬ b < 1 := not_lt.mpr (le_trans ha1 hab)
    have ha1' : ¬ a < 1 := not_lt.mpr ha1
    rw [if_neg hb1, if_neg ha1']
    apply List.Sublist.length_le
    apply List.monotone_filter_right
    intro kv hkv
    simp only [decide_eq_true_eq] at hkv ⊢
    exact lt_of_le_of_lt hab hkv

/-- C3 (amended): for a fixed alignment input and marker set the retained
haplotype count is monotonically non-increasing in min_count as long as both
values lie in the same regime of the threshold rule (both fractional, below
1, or both absolute, at least 1). Across the regime boundary the claim fails,
see retained_not_monotone_in_min_count. -/
theorem retained_antitone_within_regime (bam : Bam) (positions : List GenomePosition)
    (a b : Rat) (hab : a ≤ b) (hreg : b < 1 ∨ 1 ≤ a)
    (na nb : Nat)
    (ha : get_num_haplotype bam positions a = Except.ok na)
    (hb : get_num_haplotype bam positions b = Except.ok nb) :
    nb ≤ na := by
  unfold get_num_haplotype at ha hb
  cases hc : get_haplotype_counts bam positions with
  | error e =>
    rw [hc, bind_error_eq] at ha
    exact absurd ha (by simp)
  | ok combos =>
    rw [hc, bind_ok_eq, pure_eq_ok] at ha hb
    have ha' := Except.ok.inj ha
    have hb' := Except.ok.inj hb
    rw [← ha', ← hb']
    exact filter_haplotype_counts_antitone (counterOf combos) a b hab hreg

/-- C3 counterexample: over four reads carrying haplotypes AAA, AAA, TAA,
TAA, min_count 3/5 (fractional regime, threshold 4 * 3/5 = 2.4) retains 0
combinations while the larger min_count 1 (absolute regime) retains 2: the
retained count is not monotonically non-increasing in min_count. -/
theorem retained_not_monotone_in_min_count :
    (mkRat 3 5 ≤ (1:Rat)) ∧
    get_num_haplotype bam3 positions3 (mkRat 3 5) = Except.ok 0 ∧
    get_num_haplotype bam3 positions3 1 = Except.ok 2 ∧
    ¬ ((2:Nat) ≤ 0) := by
  decide

/-- C3 witness: at min_count 1 and 2 (same absolute regime) the retained
counts are 2 and 0, and the amended monotonicity theorem applies. -/
theorem retained_antitone_witness :
    ((1:Rat) ≤ 2) ∧ ((2:Rat) < 1 ∨ (1:Rat) ≤ 1) ∧
    get_num_haplotype bam3 positions3 1 = Except.ok 2 ∧
    get_num_haplotype bam3 positions3 2 = Except.ok 0 ∧ (0:Nat) ≤ 2 := by
  have ha : get_num_haplotype bam3 positions3 1 = Except.ok 2 := by decide
  have hb : get_num_haplotype bam3 positions3 2 = Except.ok 0 := by decide
  exact ⟨by decide, Or.inr (by decide), ha, hb,
    retained_antitone_within_regime bam3 positions3 1 2 (by decide) (Or.inr (by decide))
      2 0 ha hb⟩

/-- C8 (amended): when the input SNP positions are strictly ascending by
coordinate within each chromosome, every emitted marker set has exactly 3
positions, all on one chromosome, strictly ascending (hence distinct), and
any two of its positions are at most maxdist apart; no shorter marker set is
ever emitted. With merely non-strict ordering the distinctness part fails,
see triplet_with_duplicate_positions. -/
theorem triplets_sorted_span_invariant (vcf : List VariantRecord) (maxdist : Int)
    (hsorted : (snps_of vcf).Pairwise (fun a b => a.chrom = b.chrom → a.pos < b.pos))
    (t : List GenomePosition) (ht : t ∈ get_triplets vcf maxdist) :
    t.length = 3 ∧
    (∀ a ∈ t, ∀ b ∈ t, a.chrom = b.chrom) ∧
    t.Pairwise (fun a b => a.pos < b.pos) ∧
    (∀ a ∈ t, ∀ b ∈ t, b.pos - a.pos ≤ maxdist) := by
  unfold get_triplets at ht
  simp only [List.mem_filterMap] at ht
  obtain ⟨p, hp, hpt⟩ := ht
  split at hpt
  case isFalse => exact absurd hpt (by simp)
  case isTrue hlen =>
    have hteq := (Option.some.inj hpt).symm
    have hsubf : t ⊆ (snps_of vcf).filter
        (fun q => GenomeRange.contains ⟨p.chrom, p.pos, p.pos + maxdist⟩ q) := by
      rw [hteq]
      exact List.take_subset 3 _
    have hbound : ∀ q ∈ t, q.chrom = p.chrom ∧ p.pos ≤ q.pos ∧ q.pos ≤ p.pos + maxdist := by
      intro q hq
      exact (contains_eq p q maxdist).mp (List.mem_filter.mp (hsubf hq)).2
    have hlen3 : t.length = 3 := by rw [hteq]; exact hlen
    have hpw : t.Pairwise (fun a b => a.chrom = b.chrom → a.pos < b.pos) := by
      have hsl : t.Sublist (snps_of vcf) := by
        rw [hteq]
        exact (List.take_sublist 3 _).trans (List.filter_sublist _)
      exact List.Pairwise.sublist hsl hsorted
    refine ⟨hlen3, ?_, ?_, ?_⟩
    · intro a ha b hb
      rw [(hbound a ha).1, (hbound b hb).1]
    · refine hpw.imp_of_mem ?_
      intro a b ha hb h
      exact h (by rw [(hbound a ha).1, (hbound b hb).1])
    · intro a ha b hb
      have h1 := hbound a ha
      have h2 := hbound b hb
      omega

/-- C8 counterexample: the input 100, 100, 110 on one chromosome is sorted
ascending (non-strictly) yet get_triplets emits a marker set containing the
position 100 twice, so a marker set need not consist of distinct positions. -/
theorem triplet_with_duplicate_positions :
    (snps_of vcfDup).Pairwise (fun a b => a.chrom = b.chrom → a.pos ≤ b.pos) ∧
    (∃ t ∈ get_triplets vcfDup 50, ¬ t.Pairwise (fun a b => a ≠ b)) := by
  decide

/-- C8 witness: the spec scenario 100, 150, 200, 900 with maxdist 500 emits
the single marker set 100, 150, 200, which satisfies every invariant. -/
theorem triplets_invariant_witness :
    (snps_of vcfS).Pairwise (fun a b => a.chrom = b.chrom → a.pos < b.pos) ∧
    [⟨"1",100⟩, ⟨"1",150⟩, ⟨"1",200⟩] ∈ get_triplets vcfS 500 ∧
    (([⟨"1",100⟩, ⟨"1",150⟩, ⟨"1",200⟩] : List GenomePosition).length = 3 ∧
      (∀ a ∈ ([⟨"1",100⟩, ⟨"1",150⟩, ⟨"1",200⟩] : List GenomePosition),
        ∀ b ∈ ([⟨"1",100⟩, ⟨"1",150⟩, ⟨"1",200⟩] : List GenomePosition), a.chrom = b.chrom) ∧
      ([⟨"1",100⟩, ⟨"1",150⟩, ⟨"1",200⟩] : List GenomePosition).Pairwise
        (fun a b => a.pos < b.pos) ∧
      (∀ a ∈ ([⟨"1",100⟩, ⟨"1",150⟩, ⟨"1",200⟩] : List GenomePosition),
        ∀ b ∈ ([⟨"1",100⟩, ⟨"1",150⟩, ⟨"1",200⟩] : List GenomePosition),
        b.pos - a.pos ≤ 500)) := by
  have h1 : (snps_of vcfS).Pairwise (fun a b => a.chrom = b.chrom → a.pos < b.pos) := by
    decide
  have h2 : [⟨"1",100⟩, ⟨"1",150⟩, ⟨"1",200⟩] ∈ get_triplets vcfS 500 := by decide
  exact ⟨h1, h2, triplets_sorted_span_invariant vcfS 500 h1 _ h2⟩

/-- C5 (amended): when a run of main succeeds, its histogram is exactly the
Counter of the sorted positive retained counts: every histogram key is a
positive retained count, and the histogram tallies only the marker sets with
a positive retained count (their number, not the number of all marker sets
analyzed). Marker sets with retained count 0 are excluded from the histogram
just as from the aggregation, see histogram_omits_zero_count_sets. -/
theorem histogram_counts_only_positive_sets (bam : Bam) (vcf : List VariantRecord)
    (mc : Rat) (maxdist : Int) (l : List Nat) (r : MoiResult)
    (hl : triplet_counts bam vcf mc maxdist = Except.ok l)
    (hr : main bam vcf mc maxdist = Except.ok r) :
    r.haplotype_counts
        = counterNat ((l.filter (fun n => n > 0)).insertionSort (fun a b => a ≤ b)) ∧
    (∀ kv ∈ r.haplotype_counts, 0 < kv.1) ∧
    (r.haplotype_counts.map (fun kv => kv.2)).sum = (l.filter (fun n => n > 0)).length := by
  unfold triplet_counts at hl
  have hfold : (get_triplets vcf maxdist).foldlM (fun acc positions => do
        let num_haps ← get_num_haplotype bam positions mc
        pure (if num_haps > 0 then acc ++ [num_haps] else acc)) []
      = Except.ok (l.filter (fun n => n > 0)) := by
    rw [foldlM_counts, hl, map_ok_eq, List.nil_append]
  simp only [main] at hr
  rw [hfold, bind_ok_eq] at hr
  set s := (l.filter (fun n => n > 0)).insertionSort (fun a b => a ≤ b) with hs
  have hmem : ∀ k, k ∈ s → 0 < k := by
    intro k hk
    have hk2 : k ∈ l.filter (fun n => n > 0) :=
      ((List.perm_insertionSort (fun a b => a ≤ b) (l.filter (fun n => n > 0))).mem_iff).mp hk
    have := List.of_mem_filter hk2
    simpa using this
  cases hget : s.get? (s.length * 9 / 10) with
  | none => rw [hget] at hr; exact absurd hr (by simp)
  | some m =>
    rw [hget] at hr
    have hr' := (Except.ok.inj hr).symm
    rw [hr']
    refine ⟨rfl, ?_, ?_⟩
    · intro kv hkv
      unfold counterNat at hkv
      obtain ⟨k, hk, hkv'⟩ := List.mem_map.mp hkv
      rw [← hkv']
      exact hmem k (List.mem_dedup.mp hk)
    · show ((counterNat s).map (fun kv => kv.2)).sum = (l.filter (fun n => n > 0)).length
      unfold counterNat
      rw [List.map_map]
      have h1 : (s.dedup.map ((fun kv => kv.2) ∘ (fun k => (k, s.count k)))).sum = s.length :=
        List.sum_map_count_dedup_eq_length s
      rw [h1]
      exact (List.perm_insertionSort (fun a b => a ≤ b) (l.filter (fun n => n > 0))).length_eq

/-- C5 counterexample: two marker sets are analyzed, one with retained count
0 and one with retained count 2, yet the histogram of the result is only
[(2, 1)]: it has no entry for the zero-count marker set (lookup of 0 fails)
and its total 1 counts only the single positive marker set, not all marker
sets analyzed. -/
theorem histogram_omits_zero_count_sets :
    (get_triplets vcf5 500).length = 2 ∧
    ([⟨"1",100⟩, ⟨"1",101⟩, ⟨"1",102⟩] : List GenomePosition) ∈ get_triplets vcf5 500 ∧
    get_num_haplotype bam5 [⟨"1",100⟩, ⟨"1",101⟩, ⟨"1",102⟩] 0 = Except.ok 0 ∧
    main bam5 vcf5 0 500 = Except.ok (MoiResult.mk 2 [(2,1)]) ∧
    ([(2,1)] : List (Nat × Nat)).lookup 0 = none ∧
    (([(2,1)] : List (Nat × Nat)).map (fun kv => kv.2)).sum = 1 := by
  decide

/-- C5 witness: for the run with per-marker-set counts 0 and 2 the amended
histogram description holds. -/
theorem histogram_only_positive_witness :
    triplet_counts bam5 vcf5 0 500 = Except.ok [0,2] ∧
    main bam5 vcf5 0 500 = Except.ok (MoiResult.mk 2 [(2,1)]) ∧
    ((MoiResult.mk 2 [(2,1)]).haplotype_counts
        = counterNat (([0,2].filter (fun n => n > 0)).insertionSort (fun a b => a ≤ b)) ∧
      (∀ kv ∈ (MoiResult.mk 2 [(2,1)]).haplotype_counts, 0 < kv.1) ∧
      ((MoiResult.mk 2 [(2,1)]).haplotype_counts.map (fun kv => kv.2)).sum
        = ([0,2].filter (fun n => n > 0)).length) := by
  have h1 : triplet_counts bam5 vcf5 0 500 = Except.ok [0,2] := by decide
  have h2 : main bam5 vcf5 0 500 = Except.ok (MoiResult.mk 2 [(2,1)]) := by decide
  exact ⟨h1, h2, histogram_counts_only_positive_sets bam5 vcf5 0 500 [0,2] _ h1 h2⟩

/-- C6: a combination is kept by the retained-count filter exactly when the
spec's threshold rule retains it (strictly greater than total * min_count in
the fractional regime min_count < 1, strictly greater than min_count in the
absolute regime); the table AAG 15, AAT 3 retains 1 combination at
min_count 10 and 2 combinations at min_count 1/10 (threshold 18/10 = 1.8). -/
theorem filter_threshold_semantics :
    (∀ (tbl : List (String × Nat)) (mc : Rat) (kv : String × Nat),
      kv ∈ filter_haplotype_counts tbl mc ↔
        (kv ∈ tbl ∧ retained_per_spec ((tbl.map (fun x => x.2)).sum) kv.2 mc)) ∧
    (filter_haplotype_counts [("AAG",15),("AAT",3)] 10).length = 1 ∧
    (filter_haplotype_counts [("AAG",15),("AAT",3)] (mkRat 1 10)).length = 2 := by
  refine ⟨?_, by decide, by decide⟩
  intro tbl mc kv
  unfold filter_haplotype_counts retained_per_spec
  by_cases h : mc < 1
  · rw [if_pos h, if_pos h, List.mem_filter]
    simp only [decide_eq_true_eq, gt_iff_lt, ratMul_eq_mul]
  · rw [if_neg h, if_neg h, List.mem_filter]
    simp only [decide_eq_true_eq, gt_iff_lt]

/-- C9: a primary well-mapped read overlapping the markers whose
query_qualities is None makes get_alleles raise Python's TypeError, which
propagates through get_haplotype_counts and aborts the whole run of main —
the read is not skipped. -/
theorem missing_qualities_abort_run :
    rBadQual.query_qualities = none ∧
    get_alleles rBadQual positions3
      = Except.error ("TypeError: NoneType object is not subscriptable") ∧
    get_haplotype_counts bamBad positions3
      = Except.error ("TypeError: NoneType object is not subscriptable") ∧
    main bamBad vcfBad 10 500
      = Except.error ("TypeError: NoneType object is not subscriptable") := by
  decide

/-- Folding Python's min over positions errors as soon as some element's
chromosome differs from the running minimum's chromosome. -/
theorem pyMin_fold_cross_error (xs : List GenomePosition) : ∀ (cur : GenomePosition),
    (∃ y ∈ xs, y.chrom ≠ cur.chrom) →
    ∃ a b, xs.foldlM min_step cur
      = Except.error ("Cannot compare positions on different chromosomes: "
          ++ a ++ " and " ++ b) := by
  induction xs with
  | nil => intro cur h; simp at h
  | cons y ys ih =>
    intro cur h
    rw [List.foldlM_cons]
    by_cases hy : y.chrom = cur.chrom
    · have hstep : min_step cur y
          = Except.ok (if decide (y.pos < cur.pos) = true then y else cur) := by
        unfold min_step GenomePosition.lt
        rw [if_neg (by simp [hy])]
        rfl
      rw [hstep, bind_ok_eq]
      have hchrom : (if decide (y.pos < cur.pos) = true then y else cur).chrom = cur.chrom := by
        by_cases hlt : decide (y.pos < cur.pos) = true
        · rw [if_pos hlt, hy]
        · rw [if_neg hlt]
      apply ih
      obtain ⟨z, hz, hzc⟩ := h
      rcases List.mem_cons.mp hz with hzy | hzys
      · exact absurd (by rw [hzy, hy]) hzc
      · exact ⟨z, hzys, by rw [hchrom]; exact hzc⟩
    · have hstep : min_step cur y
          = Except.error ("Cannot compare positions on different chromosomes: "
              ++ y.chrom ++ " and " ++ cur.chrom) := by
        unfold min_step GenomePosition.lt
        rw [if_pos hy]
        rfl
      rw [hstep, bind_error_eq]
      exact ⟨y.chrom, cur.chrom, rfl⟩

/-- C10: a marker-position list containing two positions on different
chromosomes makes get_haplotype_counts fail with the ValueError raised by the
cross-chromosome ordering comparison inside min, before any read is fetched;
it never returns a haplotype count table for such input. -/
theorem cross_chromosome_markers_fail (bam : Bam) (positions : List GenomePosition)
    (hmix : ∃ p ∈ positions, ∃ q ∈ positions, p.chrom ≠ q.chrom) :
    ∃ a b, get_haplotype_counts bam positions
      = Except.error ("Cannot compare positions on different chromosomes: "
          ++ a ++ " and " ++ b) := by
  obtain ⟨p, hp, q, hq, hpq⟩ := hmix
  cases positions with
  | nil => simp at hp
  | cons x xs =>
    have hex : ∃ y ∈ xs, y.chrom ≠ x.chrom := by
      rcases List.mem_cons.mp hp with hpx | hpxs
      · rcases List.mem_cons.mp hq with hqx | hqxs
        · exact absurd (by rw [hpx, hqx]) hpq
        · exact ⟨q, hqxs, by rw [← hpx]; exact Ne.symm hpq⟩
      · by_cases hqx : q.chrom = x.chrom
        · exact ⟨p, hpxs, by rw [← hqx]; exact hpq⟩
        · rcases List.mem_cons.mp hq with hqx2 | hqxs
          · exact absurd (by rw [hqx2]) hqx
          · exact ⟨q, hqxs, hqx⟩
    obtain ⟨a, b, herr⟩ := pyMin_fold_cross_error xs x hex
    refine ⟨a, b, ?_⟩
    have h2 : pyMin (x :: xs) = Except.error
        ("Cannot compare positions on different chromosomes: " ++ a ++ " and " ++ b) := by
      rw [show pyMin (x :: xs) = xs.foldlM min_step x from rfl]
      exact herr
    unfold get_haplotype_counts
    simp only [List.head?_cons, pure_eq_ok, bind_ok_eq, h2, map_error_eq, bind_error_eq]

/-- C10 witness: positions on chromosomes 1 and 2 make get_haplotype_counts
fail with the cross-chromosome comparison error. -/
theorem cross_chromosome_markers_fail_witness :
    (∃ p ∈ ([⟨"1",5⟩, ⟨"2",7⟩] : List GenomePosition),
      ∃ q ∈ ([⟨"1",5⟩, ⟨"2",7⟩] : List GenomePosition), p.chrom ≠ q.chrom) ∧
    (∃ a b, get_haplotype_counts bam0 [⟨"1",5⟩, ⟨"2",7⟩]
      = Except.error ("Cannot compare positions on different chromosomes: "
          ++ a ++ " and " ++ b)) := by
  have h : ∃ p ∈ ([⟨"1",5⟩, ⟨"2",7⟩] : List GenomePosition),
      ∃ q ∈ ([⟨"1",5⟩, ⟨"2",7⟩] : List GenomePosition), p.chrom ≠ q.chrom := by decide
  exact ⟨h, cross_chromosome_markers_fail bam0 [⟨"1",5⟩, ⟨"2",7⟩] h⟩

/-- The last write wins in the alleles dict: a successful lookup comes from
an entry of the association list. -/
theorem dict_get_mem_aux (d : List (GenomePosition × Char)) (p : GenomePosition) (c : Char) :
    ∀ acc : Option Char,
      d.foldl (fun acc kv => if kv.1 = p then some kv.2 else acc) acc = some c →
      (p, c) ∈ d ∨ acc = some c := by
  induction d with
  | nil => intro acc h; exact Or.inr h
  | cons kv d ih =>
    intro acc h
    rw [List.foldl_cons] at h
    rcases ih _ h with h1 | h2
    · exact Or.inl (List.mem_cons_of_mem _ h1)
    · by_cases hkv : kv.1 = p
      · rw [if_pos hkv] at h2
        have hkv2 : kv.2 = c := Option.some.inj h2
        have : kv = (p, c) := Prod.ext hkv hkv2
        exact Or.inl (this ▸ List.mem_cons_self _ _)
      · rw [if_neg hkv] at h2
        exact Or.inr h2

theorem dict_get_mem (d : List (GenomePosition × Char)) (p : GenomePosition) (c : Char)
    (h : dict_get d p = some c) : (p, c) ∈ d := by
  unfold dict_get at h
  rcases dict_get_mem_aux d p c none h with h1 | h2
  · exact h1
  · exact absurd h2 (by simp)

/-- One step of the get_alleles loop either leaves the dict unchanged or
appends one called_entry. -/
theorem allele_step_cases (read : Read) (positions : List GenomePosition)
    (alleles acc' : List (GenomePosition × Char)) (pair : AlignedPair)
    (h : allele_step read positions alleles pair = Except.ok acc') :
    acc' = alleles ∨
    ∃ e, acc' = alleles ++ [e] ∧ called_entry read positions pair e := by
  simp only [allele_step] at h
  cases hnt : pair.read_nt with
  | none => simp only [hnt] at h; exact Or.inl (Except.ok.inj h).symm
  | some nt =>
    simp only [hnt] at h
    cases hrp : pair.read_pos with
    | none => simp only [hrp] at h; exact Or.inl (Except.ok.inj h).symm
    | some rp =>
      simp only [hrp] at h
      cases href : pair.ref_pos with
      | none => simp only [href] at h; exact Except.noConfusion h
      | some ref_pos =>
        simp only [href] at h
        by_cases hmem : (⟨read.reference_name, ref_pos + 1⟩ : GenomePosition) ∈ positions
        · rw [if_neg (not_not_intro hmem)] at h
          cases hq : read.query_qualities with
          | none => simp only [hq] at h; exact Except.noConfusion h
          | some quals =>
            simp only [hq] at h
            cases hqget : quals.get? rp with
            | none => simp only [hqget] at h; exact Except.noConfusion h
            | some q =>
              simp only [hqget] at h
              by_cases hql : q < 12
              · rw [if_pos hql] at h
                exact Or.inl (Except.ok.inj h).symm
              · rw [if_neg hql] at h
                by_cases hlow : nt.isLower
                · rw [if_pos hlow] at h
                  cases hbase : read.query_sequence.get? rp with
                  | none => simp only [hbase] at h; exact Except.noConfusion h
                  | some base =>
                    simp only [hbase] at h
                    refine Or.inr ⟨(⟨read.reference_name, ref_pos + 1⟩, base.toUpper),
                      (Except.ok.inj h).symm, hmem, rfl, rp, hrp, ?_,
                      ⟨quals, q, hq, hqget, not_lt.mp hql⟩, nt, hnt,
                      Or.inl ⟨hlow, base, hbase, rfl⟩⟩
                    rw [href]
                    simp
                · rw [if_neg hlow] at h
                  refine Or.inr ⟨(⟨read.reference_name, ref_pos + 1⟩, nt),
                    (Except.ok.inj h).symm, hmem, rfl, rp, hrp, ?_,
                    ⟨quals, q, hq, hqget, not_lt.mp hql⟩, nt, hnt,
                    Or.inr ⟨Bool.not_eq_true _ ▸ eq_false_of_ne_true (fun hh => hlow hh), rfl⟩⟩
                  rw [href]
                  simp
        · rw [if_pos hmem] at h
          exact Or.inl (Except.ok.inj h).symm

/-- Every entry of the alleles dict built by get_alleles is a called_entry of
one of the read's aligned pairs. -/
theorem alleles_fold_sound (read : Read) (positions : List GenomePosition) :
    ∀ (pairs : List AlignedPair) (acc final : List (GenomePosition × Char)),
      pairs.foldlM (allele_step read positions) acc = Except.ok final →
      ∀ e ∈ final, e ∈ acc ∨ ∃ pair ∈ pairs, called_entry read positions pair e := by
  intro pairs
  induction pairs with
  | nil =>
    intro acc final h e he
    rw [List.foldlM_nil, pure_eq_ok] at h
    exact Or.inl ((Except.ok.inj h) ▸ he)
  | cons pair pairs ih =>
    intro acc final h e he
    rw [List.foldlM_cons] at h
    cases hstep : allele_step read positions acc pair with
    | error er => rw [hstep, bind_error_eq] at h; exact Except.noConfusion h
    | ok acc' =>
      rw [hstep, bind_ok_eq] at h
      rcases ih acc' final h e he with h1 | ⟨pr, hpr, hp⟩
      · rcases allele_step_cases read positions acc acc' pair hstep with heq | ⟨en, heq, hen⟩
        · exact Or.inl (heq ▸ h1)
        · rw [heq] at h1
          rcases List.mem_append.mp h1 with h2 | h2
          · exact Or.inl h2
          · refine Or.inr ⟨pair, List.mem_cons_self _ _, ?_⟩
            have he2 : e = en := List.mem_singleton.mp h2
            exact he2 ▸ hen
      · exact Or.inr ⟨pr, List.mem_cons_of_mem _ hpr, hp⟩

/-- C7: whenever get_alleles succeeds and reports a call c for the i-th
target position p, the read's chromosome is p's chromosome, some aligned
(non-indel) pair observes p (reference coordinate p.pos - 1) at base quality
at least 12, and c is the uppercased base actually sequenced by the read at
that offset (never the reference base at a mismatch). The hypothesis hcase is
the pysam contract that an uppercase reference base in
get_aligned_pairs(with_seq=True) means the sequenced base equals the
reference base. A position that is unobserved, falls in an indel, or only has
base quality below 12 yields no call, since by this theorem any call requires
such a qualifying pair. -/
theorem allele_calls_characterized (read : Read) (positions : List GenomePosition)
    (res : List (Option Char))
    (hcase : ∀ pr ∈ read.aligned_pairs, ∀ nt rp, pr.read_nt = some nt →
      pr.read_pos = some rp → nt.isLower = false →
      (read.query_sequence.get? rp).map Char.toUpper = some nt)
    (hok : get_alleles read positions = Except.ok res)
    (i : Nat) (p : GenomePosition) (hp : positions.get? i = some p)
    (c : Char) (hc : res.get? i = some (some c)) :
    p.chrom = read.reference_name ∧
    ∃ pair ∈ read.aligned_pairs, ∃ rp : Nat,
      pair.read_pos = some rp ∧
      pair.ref_pos = some (p.pos - 1) ∧
      (∃ quals q, read.query_qualities = some quals ∧ quals.get? rp = some q ∧ 12 ≤ q) ∧
      (read.query_sequence.get? rp).map Char.toUpper = some c := by
  unfold get_alleles at hok
  cases hfold : read.aligned_pairs.foldlM (allele_step read positions) [] with
  | error e => rw [hfold, bind_error_eq] at hok; exact Except.noConfusion hok
  | ok alleles =>
    rw [hfold, bind_ok_eq, pure_eq_ok] at hok
    have hres := (Except.ok.inj hok).symm
    rw [hres, List.get?_map, hp] at hc
    have hdg : dict_get alleles p = some c := Option.some.inj hc
    have hmem : (p, c) ∈ alleles := dict_get_mem alleles p c hdg
    rcases alleles_fold_sound read positions read.aligned_pairs [] alleles hfold (p, c) hmem
      with h0 | ⟨pair, hpair, hce⟩
    · exact absurd h0 (List.not_mem_nil _)
    · obtain ⟨hp_mem, hchrom, rp, hrp, href, hqual, nt, hnt, hcase2⟩ := hce
      refine ⟨hchrom, pair, hpair, rp, hrp, href, hqual, ?_⟩
      rcases hcase2 with ⟨hlow, base, hbase, hceq⟩ | ⟨hup, hceq⟩
      · rw [hbase, show c = base.toUpper from hceq]
        rfl
      · rw [show c = nt from hceq]
        exact hcase pair hpair nt rp hnt hrp hup

/-- C7 witness: a one-base read matching reference base A at quality 30
yields the call A for target position 1, through a qualifying aligned pair. -/
theorem allele_calls_witness :
    get_alleles readC7 [⟨"1",1⟩] = Except.ok [some 'A'] ∧
    ((⟨"1",1⟩ : GenomePosition).chrom = readC7.reference_name ∧
      ∃ pair ∈ readC7.aligned_pairs, ∃ rp : Nat,
        pair.read_pos = some rp ∧
        pair.ref_pos = some ((⟨"1",1⟩ : GenomePosition).pos - 1) ∧
        (∃ quals q, readC7.query_qualities = some quals ∧ quals.get? rp = some q ∧ 12 ≤ q) ∧
        (readC7.query_sequence.get? rp).map Char.toUpper = some 'A') := by
  have hok : get_alleles readC7 [⟨"1",1⟩] = Except.ok [some 'A'] := by decide
  have hcase : ∀ pr ∈ readC7.aligned_pairs, ∀ nt rp, pr.read_nt = some nt →
      pr.read_pos = some rp → nt.isLower = false →
      (readC7.query_sequence.get? rp).map Char.toUpper = some nt := by
    intro pr hpr nt rp hnt hrp hup
    have hpr' := List.mem_singleton.mp hpr
    subst hpr'
    have hnt' : nt = 'A' := (Option.some.inj hnt).symm
    have hrp' : rp = 0 := (Option.some.inj hrp).symm
    subst hnt'
    subst hrp'
    decide
  exact ⟨hok, allele_calls_characterized readC7 [⟨"1",1⟩] [some 'A'] hcase hok
    0 ⟨"1",1⟩ rfl 'A' rfl⟩

end Pymoi
